import Mathlib

/-!
Verification of the plugin acquisition and installation core of packer
(`plugingetter` package and the public-zip getter / plugins-remove command).

The resolver code (`Requirement.InstallLatest`, `ListInstallations`,
`ChecksumFileEntry.init`, `InstallList.Less`, `Checksummer`) is exercised by
the repository's test file but its production source is not part of the
repository snapshot; those operations are modelled from the specification
(each such definition carries a `Modelled from the spec:` doc comment).
`publiczip.Getter.Get` and `PluginsRemoveCommand.RunContext` are translated
from their source in `src/packer/plugin-getter/public-zip/getter.go`.

Strings are processed through explicit `List Char` helpers so that every
definition evaluates by kernel reduction on concrete inputs.
-/

namespace Packer

/-- Decidable equality for `Except`, so that concrete runs of the fallible
operations can be checked by `decide`. -/
instance {ε α : Type} [DecidableEq ε] [DecidableEq α] : DecidableEq (Except ε α)
  | .error a, .error b => decidable_of_iff (a = b) (by simp)
  | .error _, .ok _ => .isFalse (fun h => Except.noConfusion h)
  | .ok _, .error _ => .isFalse (fun h => Except.noConfusion h)
  | .ok a, .ok b => decidable_of_iff (a = b) (by simp)

/-- Split a list of characters on a separator character; the result always has
at least one (possibly empty) segment, like Go's `strings.Split`. -/
def splitOnChar (c : Char) : List Char → List (List Char)
  | [] => [[]]
  | a :: rest =>
    match splitOnChar c rest with
    | [] => if a = c then [[], []] else [[a]]
    | h :: t => if a = c then [] :: h :: t else (a :: h) :: t

/-- Remove `p` from the front of `s`; `none` when `p` is not a prefix of `s`,
like Go's `strings.HasPrefix` + `strings.TrimPrefix` pair. -/
def dropPrefixChars : List Char → List Char → Option (List Char)
  | [], s => some s
  | _ :: _, [] => none
  | a :: p, b :: s => if a = b then dropPrefixChars p s else none

/-- Join character lists with a separator character, the inverse of
`splitOnChar`. -/
def joinWith (c : Char) : List (List Char) → List Char
  | [] => []
  | [x] => x
  | x :: xs => x ++ c :: joinWith c xs

/-- Parse a non-empty all-digit character list as a decimal number, like Go's
`strconv.Atoi` on natural numbers. -/
def charsToNat? (l : List Char) : Option Nat :=
  if l.isEmpty then none
  else if l.all (fun c => c.isDigit) then
    some (l.foldl (fun a c => a * 10 + (c.toNat - 48)) 0)
  else none

/-- Parse a decimal string. -/
def strToNat? (s : String) : Option Nat := charsToNat? s.data

/-- Strict lexicographic order on character lists (Go string `<`). -/
def charsLt : List Char → List Char → Bool
  | [], [] => false
  | [], _ :: _ => true
  | _ :: _, [] => false
  | a :: as, b :: bs => if a < b then true else if b < a then false else charsLt as bs

/-- Split a filename-like character list at its last dot: `(stem, extension)`;
the extension is empty when there is no dot, like Go's `filepath.Ext`. -/
def splitExt (l : List Char) : List Char × List Char :=
  match splitOnChar '.' l with
  | [] => (l, [])
  | [_] => (l, [])
  | parts => (joinWith '.' parts.dropLast, parts.getLastD [])

/-- Remove a trailing suffix from a character list when present. -/
def stripSuffixChars (suf l : List Char) : List Char :=
  match dropPrefixChars suf.reverse l.reverse with
  | some r => r.reverse
  | none => l

/-- Remove a trailing `".zip"` from a filename when present (spec 4.5(f):
the expected archive entry name is the zip filename with `.zip` removed). -/
def stripZip (s : String) : String := String.mk (stripSuffixChars ".zip".data s.data)

/-- First whitespace-separated token of a string; spec 6: "The core reads only
the first whitespace-separated token" of a sidecar checksum file. -/
def firstToken (s : String) : String :=
  String.mk (s.data.takeWhile (fun c => !c.isWhitespace))

/-- Modelled from the spec: semantic version with a pre-release tag (spec 3,
`Release`); the concrete parser of the external `go-version` library is not
part of the repository. -/
structure SemVer where
  major : Nat
  minor : Nat
  patch : Nat
  pre : String
deriving DecidableEq

/-- Modelled from the spec: parse a semver string such as `v1.2.2-dev`; a
leading `v` is tolerated, the pre-release tag follows the first dash. -/
def SemVer.parse (s : String) : Option SemVer :=
  let l := match s.data with
    | 'v' :: r => r
    | r => r
  let core : List Char := match splitOnChar '-' l with
    | c :: _ => c
    | [] => l
  let pre : List Char := match splitOnChar '-' l with
    | _ :: rest => if rest.isEmpty then [] else joinWith '-' rest
    | [] => []
  match splitOnChar '.' core with
  | [a, b, c] =>
    match charsToNat? a, charsToNat? b, charsToNat? c with
    | some ma, some mi, some pa => some ⟨ma, mi, pa, String.mk pre⟩
    | _, _, _ => none
  | _ => none

/-- Modelled from the spec: semver precedence (spec 4.6): numeric fields
lexicographically, and at an equal numeric triple a pre-release sorts before
the corresponding release. -/
def SemVer.lt (x y : SemVer) : Bool :=
  if x.major = y.major then
    if x.minor = y.minor then
      if x.patch = y.patch then
        if x.pre = "" then false
        else if y.pre = "" then true
        else charsLt x.pre.data y.pre.data
      else decide (x.patch < y.patch)
    else decide (x.minor < y.minor)
  else decide (x.major < y.major)

/-- Render a semver the way `go-version`'s `Version.String()` keys the mock
getter's checksum map: `major.minor.patch[-pre]`, no leading `v`. -/
def SemVer.key (v : SemVer) : String :=
  toString v.major ++ "." ++ toString v.minor ++ "." ++ toString v.patch ++
    (if v.pre = "" then "" else "-" ++ v.pre)

/-- Modelled from the spec: one semver predicate of a constraint conjunction
(spec 3, `Requirement.VersionConstraints`). -/
inductive ConstraintOp
  | eq
  | neq
  | gt
  | gte
  | lt
  | lte
deriving DecidableEq

/-- Modelled from the spec: a single version constraint such as `>= v2`. -/
structure VersionConstraint where
  op : ConstraintOp
  ver : SemVer
deriving DecidableEq

/-- Modelled from the spec: a version satisfies a conjunction of semver
predicates; an empty constraint set matches every version (spec 3). -/
def satisfiesConstraints (v : SemVer) (cs : List VersionConstraint) : Bool :=
  cs.all fun c =>
    match c.op with
    | .eq => decide (v = c.ver)
    | .neq => decide (v ≠ c.ver)
    | .gt => SemVer.lt c.ver v
    | .gte => !SemVer.lt v c.ver
    | .lt => SemVer.lt v c.ver
    | .lte => !SemVer.lt c.ver v

/-- Parsed plugin source identifier, a triple of hostname, namespace and type
(spec 3, `PluginIdentifier`; Go `addrs.Plugin`). -/
structure PluginIdentifier where
  Hostname : String
  Namespace : String
  PluginType : String
deriving DecidableEq

/-- Derived form `Namespace + "/packer-plugin-" + Type` (spec 3). -/
def PluginIdentifier.RealRelativePath (id : PluginIdentifier) : String :=
  id.Namespace ++ "/packer-plugin-" ++ id.PluginType

/-- Derived form `"packer-plugin-" + Type + "_"` (spec 3). -/
def PluginIdentifier.FilenamePrefix (id : PluginIdentifier) : String :=
  "packer-plugin-" ++ id.PluginType ++ "_"

/-- Modelled from the spec: a plugin requirement, identifier plus version
constraints (spec 3). -/
structure Requirement where
  Identifier : PluginIdentifier
  VersionConstraints : List VersionConstraint
deriving DecidableEq

/-- Shorthand for a requirement's filename prefix. -/
def Requirement.FilenamePrefix (r : Requirement) : String :=
  r.Identifier.FilenamePrefix

/-- A release as served by the `releases` resource (spec 3). -/
structure Release where
  Version : String
deriving DecidableEq

/-- A remote checksum manifest entry; only `Filename` and `Checksum` are on
the wire, `binVersion` and `ext` are filled in by `init` (spec 3). -/
structure ChecksumFileEntry where
  Filename : String
  Checksum : String
  binVersion : String := ""
  ext : String := ""
deriving DecidableEq

/-- An installed binary record (spec 3). -/
structure Installation where
  BinaryPath : String
  Version : String
deriving DecidableEq

/-- Target platform filter and API version of the host (spec 3,
`BinaryInstallationOptions`; the checksummer list is modelled as the single
sha256 checksummer that every call site configures). -/
structure BinaryInstallationOptions where
  APIVersionMajor : String
  APIVersionMinor : String
  OS : String
  ARCH : String
  Ext : String := ""
deriving DecidableEq

/-- Structured result of parsing a plugin filename against the canonical
grammar `<prefix><version>_x<apiMajor>.<apiMinor>_<os>_<arch>[.<ext>]`
(spec 4.2 and 9: the one shared parser between on-disk discovery and
remote-manifest validation). -/
structure ParsedFilename where
  version : String
  apiMajor : String
  apiMinor : String
  os : String
  archExt : String
  arch : String
  extension : String
deriving DecidableEq

/-- Modelled from the spec: parse a filename as
`<prefix><version>_x<apiMajor>.<apiMinor>_<os>_<arch>[.<ext>]` (spec 4.2);
`arch` is the fourth underscore field with the extension after its last dot
removed. -/
def parseFilename (pfx filename : String) : Option ParsedFilename :=
  match dropPrefixChars pfx.data filename.data with
  | none => none
  | some rest =>
    match splitOnChar '_' rest with
    | [v, xapi, osPart, archPart] =>
      match xapi with
      | 'x' :: api =>
        match splitOnChar '.' api with
        | [ma, mi] =>
          some ⟨String.mk v, String.mk ma, String.mk mi, String.mk osPart,
            String.mk archPart, String.mk (splitExt archPart).1,
            String.mk (splitExt archPart).2⟩
        | _ => none
      | _ => none
    | _ => none

/-- Modelled from the spec: `ChecksumFileEntry.init` (spec 4.2) validates an
entry against the requirement: the filename must begin with the requirement's
filename prefix and have at least the four underscore-separated fields
`<version>`, `x<api>`, `<os>`, `<arch>`; on success `binVersion` is the first
underscore-separated field after the prefix and `ext` is everything after the
last dot of the filename. -/
def ChecksumFileEntry.init (e : ChecksumFileEntry) (req : Requirement) :
    Except String ChecksumFileEntry :=
  match dropPrefixChars req.FilenamePrefix.data e.Filename.data with
  | none => .error ("wrong prefix for " ++ e.Filename)
  | some rest =>
    match splitOnChar '_' rest with
    | v :: _ :: _ :: _ :: _ =>
      .ok { e with binVersion := String.mk v,
                   ext := String.mk (splitExt e.Filename.data).2 }
    | _ => .error ("malformed filename " ++ e.Filename)

/-- Modelled from the spec: the API compatibility filter (spec 4.4 step 2):
reject if `apiMajor ≠ opts.APIVersionMajor`, or if the majors are equal and
`apiMinor > opts.APIVersionMinor`; the comparison is on integer parses. -/
def apiCompatible (opts : BinaryInstallationOptions) (apiMajor apiMinor : String) : Bool :=
  match strToNat? apiMajor, strToNat? apiMinor,
      strToNat? opts.APIVersionMajor, strToNat? opts.APIVersionMinor with
  | some ma, some mi, some oma, some omi =>
    !(decide (ma ≠ oma) || (decide (ma = oma) && decide (omi < mi)))
  | _, _, _, _ => false

/-- Modelled from the spec: a remote checksum entry survives the platform and
API filter when its parsed `(os, arch)` equal the options' and its API version
passes the compatibility test (spec 4.5(b)). -/
def entryMatches (req : Requirement) (binOpts : BinaryInstallationOptions)
    (e : ChecksumFileEntry) : Bool :=
  match parseFilename req.FilenamePrefix e.Filename with
  | none => false
  | some p =>
    decide (p.os = binOpts.OS) && decide (p.arch = binOpts.ARCH) &&
      apiCompatible binOpts p.apiMajor p.apiMinor

/-- An association list used for the modelled filesystem and for the mock
getter's maps; the first binding of a key is the live one. -/
def assocFind {β : Type} : List (String × β) → String → Option β
  | [], _ => none
  | (k, v) :: rest, key => if k = key then some v else assocFind rest key

/-- Modelled filesystem: a finite map from paths to file contents. -/
def FS : Type := List (String × String)

instance : DecidableEq FS := inferInstanceAs (DecidableEq (List (String × String)))

/-- Look a path up in the modelled filesystem. -/
def fsLookup (fs : FS) (p : String) : Option String := assocFind fs p

/-- Write a file (create or overwrite). -/
def fsWrite (fs : FS) (p c : String) : FS := (p, c) :: fs

/-- Remove a path from the modelled filesystem (all bindings). -/
def fsRemove (fs : FS) (p : String) : FS :=
  List.filter (fun kv => decide (kv.1 ≠ p)) fs

/-- Hexadecimal digit characters. -/
def hexChar : Nat → Char
  | 0 => '0'
  | 1 => '1'
  | 2 => '2'
  | 3 => '3'
  | 4 => '4'
  | 5 => '5'
  | 6 => '6'
  | 7 => '7'
  | 8 => '8'
  | 9 => '9'
  | 10 => 'a'
  | 11 => 'b'
  | 12 => 'c'
  | 13 => 'd'
  | 14 => 'e'
  | _ => 'f'

/-- Modelled from the spec: stand-in for the SHA-256 streaming digester of the
`sha256` checksummer (spec 4.1), a crypto primitive outside the source; it
maps file bytes to a 16-character lowercase-hex string. -/
def sha256Hex (s : String) : String :=
  let h := s.data.foldl (fun a c => (a * 131 + c.toNat) % (2 ^ 64)) 5381
  String.mk ((List.range 16).map (fun i => hexChar (h / 16 ^ (15 - i) % 16)))

/-- Sidecar checksum file suffix: `Checksummer.FileExt()` of the sha256
checksummer, `"_" + "SHA256" + "SUM"` (spec 4.1). -/
def sidecarSuffix : String := "_SHA256SUM"

/-- Directory that holds this requirement's binaries:
`<PluginDirectory>/<Hostname>/<Namespace>/<Type>` (spec 3, on-disk layout). -/
def pluginSubdir (req : Requirement) (pluginDirectory : String) : String :=
  pluginDirectory ++ "/" ++ req.Identifier.Hostname ++ "/" ++
    req.Identifier.Namespace ++ "/" ++ req.Identifier.PluginType

/-- Modelled from the spec: judge one filesystem entry as a candidate
installation (spec 4.4): it must live in the requirement's plugin directory,
its name must fit the grammar with the options' exact `<os>` and
`<arch><Ext>`, its version must satisfy the constraints and its API version
must pass the filter; a missing sidecar is a soft reject, a sidecar whose
digest differs from the binary's computed digest is a fatal error. -/
def checkInstallation (req : Requirement) (binOpts : BinaryInstallationOptions)
    (pluginDirectory : String) (fs : FS) (path content : String) :
    Except String (Option Installation) :=
  match dropPrefixChars (pluginSubdir req pluginDirectory ++ "/").data path.data with
  | none => .ok none
  | some nameChars =>
    match parseFilename req.FilenamePrefix (String.mk nameChars) with
    | none => .ok none
    | some p =>
      if decide (p.os = binOpts.OS) && decide (p.archExt = binOpts.ARCH ++ binOpts.Ext) &&
          apiCompatible binOpts p.apiMajor p.apiMinor &&
          (match SemVer.parse p.version with
           | some sv => satisfiesConstraints sv req.VersionConstraints
           | none => false) then
        match fsLookup fs (path ++ sidecarSuffix) with
        | none => .ok none
        | some side =>
          if firstToken side = sha256Hex content then
            .ok (some ⟨path, p.version⟩)
          else .error ("ChecksumMismatch: " ++ path)
      else .ok none

/-- Fold `checkInstallation` over the filesystem entries, propagating the
fatal checksum-mismatch error. -/
def collectInstalls (req : Requirement) (binOpts : BinaryInstallationOptions)
    (pluginDirectory : String) (fs : FS) :
    List (String × String) → Except String (List Installation)
  | [] => .ok []
  | (path, content) :: rest =>
    match checkInstallation req binOpts pluginDirectory fs path content with
    | .error e => .error e
    | .ok o =>
      match collectInstalls req binOpts pluginDirectory fs rest with
      | .error e => .error e
      | .ok l =>
        .ok (match o with
          | some i => i :: l
          | none => l)

/-- Version of an installation for sorting, `0.0.0` when unparsable. -/
def instVer (i : Installation) : SemVer := (SemVer.parse i.Version).getD ⟨0, 0, 0, ""⟩

/-- Insert into a version-ascending installation list. -/
def insertAsc (i : Installation) : List Installation → List Installation
  | [] => [i]
  | j :: rest =>
    if SemVer.lt (instVer i) (instVer j) then i :: j :: rest else j :: insertAsc i rest

/-- Sort installations ascending by version (spec 4.4 step 3: newest last). -/
def sortAsc : List Installation → List Installation
  | [] => []
  | i :: rest => insertAsc i (sortAsc rest)

/-- Modelled from the spec: `Requirement.ListInstallations` (spec 4.4):
enumerate the filesystem, keep entries that match the glob, the constraints
and the API filter and whose sidecar digest verifies, and return them sorted
ascending by version; a sidecar-digest mismatch is surfaced as an error. -/
def Requirement.ListInstallations (req : Requirement)
    (binOpts : BinaryInstallationOptions) (pluginDirectory : String) (fs : FS) :
    Except String (List Installation) :=
  match collectInstalls req binOpts pluginDirectory fs fs with
  | .error e => .error e
  | .ok l => .ok (sortAsc l)

/-- Ordered collection of installations (spec 3, `InstallList`). -/
def InstallList : Type := List Installation

instance : DecidableEq InstallList := inferInstanceAs (DecidableEq (List Installation))

/-- Modelled from the spec: `InstallList.Less` (spec 4.6) parses the versions
at the two indices as semver and compares them, pre-releases sorting before
the corresponding release. -/
def InstallList.Less (l : InstallList) (i j : Nat) : Bool :=
  match List.get? l i, List.get? l j with
  | some a, some b =>
    match SemVer.parse a.Version, SemVer.parse b.Version with
    | some va, some vb => SemVer.lt va vb
    | _, _ => false
  | _, _ => false

/-- A zip archive as the resolver sees it: the raw bytes that are hashed
during download, and the named entries that extraction reads (the
correspondence is the external `archive/zip` format). -/
structure ZipArchive where
  bytes : String
  entries : List (String × String)
deriving DecidableEq

/-- A getter's data, the shape the repository's `mockPluginGetter` has:
releases, a version-keyed checksum manifest map and an access-keyed zip map;
a missing key means `Get` fails for that resource. -/
structure GetterData where
  Releases : List Release
  ChecksumFileEntries : List (String × List ChecksumFileEntry)
  Zips : List (String × ZipArchive)
deriving DecidableEq

/-- Options of `Requirement.InstallLatest`, the shape `InstallOptions` has at
the call sites: a getter, the plugin directory, a force flag and the binary
installation options. -/
structure InstallOptions where
  Getter : GetterData
  PluginDirectory : String
  Force : Bool
  BinOpts : BinaryInstallationOptions
deriving DecidableEq

/-- Modelled from the spec: the releases that satisfy the requirement's
constraints, parsed and paired with their original version string. -/
def parsedReleases (g : GetterData) : List (SemVer × String) :=
  g.Releases.filterMap fun r =>
    match SemVer.parse r.Version with
    | some v => some (v, r.Version)
    | none => none

/-- Insert into a version-descending list. -/
def insertDesc (p : SemVer × String) : List (SemVer × String) → List (SemVer × String)
  | [] => [p]
  | q :: rest => if SemVer.lt q.1 p.1 then p :: q :: rest else q :: insertDesc p rest

/-- Sort version-string pairs descending by semver. -/
def sortDesc : List (SemVer × String) → List (SemVer × String)
  | [] => []
  | p :: rest => insertDesc p (sortDesc rest)

/-- Modelled from the spec: candidate versions of `InstallLatest` (spec 4.5
step 2): releases that satisfy the constraints, sorted newest first. -/
def selectVersions (req : Requirement) (g : GetterData) : List (SemVer × String) :=
  sortDesc ((parsedReleases g).filter fun p =>
    satisfiesConstraints p.1 req.VersionConstraints)

/-- Modelled from the spec: the checksum entries that survive for a version
(spec 4.5(a)-(b)): fetch the `sha256` manifest (a missing manifest yields no
entries), run `init` on each entry dropping invalid ones, and keep the
platform/API-compatible ones. -/
def survivingEntries (req : Requirement) (binOpts : BinaryInstallationOptions)
    (g : GetterData) (v : SemVer) : List ChecksumFileEntry :=
  match assocFind g.ChecksumFileEntries v.key with
  | none => []
  | some es =>
    (es.filterMap fun e =>
      match e.init req with
      | .ok e2 => some e2
      | .error _ => none).filter (entryMatches req binOpts)

/-- On-disk filename of the binary a checksum entry describes: the zip
filename with `.zip` removed plus the configured extension (spec 4.5(d) and
6, `Ext` applied to on-disk filenames only). -/
def expectedBinName (binOpts : BinaryInstallationOptions) (e : ChecksumFileEntry) : String :=
  stripZip e.Filename ++ binOpts.Ext

/-- Full on-disk path of the binary a checksum entry describes. -/
def expectedPath (req : Requirement) (opts : InstallOptions) (e : ChecksumFileEntry) : String :=
  pluginSubdir req opts.PluginDirectory ++ "/" ++ expectedBinName opts.BinOpts e

/-- Access key under which a getter serves a zip, the key the repository's
`mockPluginGetter.Get` builds:
`<Hostname>/<RealRelativePath>/<expected zip filename>`. -/
def zipKey (req : Requirement) (e : ChecksumFileEntry) : String :=
  req.Identifier.Hostname ++ "/" ++ req.Identifier.RealRelativePath ++ "/" ++ e.Filename

/-- Modelled from the spec: handle the first surviving checksum entry of the
selected version (spec 4.5(d)-(g)): if the locally installed set contains the
entry's expected binary, return `none` when its computed digest matches the
entry's checksum and fail fatally otherwise; else fetch the zip, fail fatally
on an archive digest mismatch, and otherwise extract the expected entry,
write the binary and its sidecar and return the installation. -/
def handleEntry (req : Requirement) (opts : InstallOptions) (L : List Installation)
    (fs : FS) (vstr : String) (e : ChecksumFileEntry) :
    Except String (Option Installation) × FS :=
  match L.find? (fun l => decide (l.BinaryPath = expectedPath req opts e)) with
  | some l =>
    match fsLookup fs l.BinaryPath with
    | some content =>
      if sha256Hex content = e.Checksum then (.ok none, fs)
      else (.error ("ChecksumMismatch: installed binary " ++ l.BinaryPath ++
        " does not match the remote checksum"), fs)
    | none => (.error ("missing installed binary " ++ l.BinaryPath), fs)
  | none =>
    match assocFind opts.Getter.Zips (zipKey req e) with
    | none => (.error ("could not find zipfile " ++ zipKey req e), fs)
    | some archive =>
      if sha256Hex archive.bytes = e.Checksum then
        match assocFind archive.entries (stripZip e.Filename) with
        | some binContent =>
          (.ok (some ⟨expectedPath req opts e, vstr⟩),
            fsWrite (fsWrite fs (expectedPath req opts e) binContent)
              (expectedPath req opts e ++ sidecarSuffix)
              (sha256Hex binContent ++ ("  " ++ (expectedBinName opts.BinOpts e ++ "\n"))))
        | none =>
          (.error ("archive " ++ e.Filename ++ " is missing the expected binary"), fs)
      else (.error ("ChecksumMismatch: archive " ++ e.Filename ++
        " does not match its checksum"), fs)

/-- Modelled from the spec: iterate candidate versions newest first (spec 4.5
step 3); a version with no surviving checksum entry is silently skipped. -/
def installLoop (req : Requirement) (opts : InstallOptions) (L : List Installation) :
    List (SemVer × String) → FS → Except String (Option Installation) × FS
  | [], fs => (.ok none, fs)
  | (v, vstr) :: rest, fs =>
    match survivingEntries req opts.BinOpts opts.Getter v with
    | [] => installLoop req opts L rest fs
    | e :: _ => handleEntry req opts L fs vstr e

/-- Modelled from the spec: `Requirement.InstallLatest` (spec 4.5): list the
local installations, select the constraint-satisfying versions newest first
and run the per-version loop; with no usable version the call is a no-op
success. -/
def Requirement.InstallLatest (req : Requirement) (opts : InstallOptions) (fs : FS) :
    Except String (Option Installation) × FS :=
  match req.ListInstallations opts.BinOpts opts.PluginDirectory fs with
  | .error e => (.error e, fs)
  | .ok L => installLoop req opts L (selectVersions req opts.Getter) fs

/-- Options carried by `Getter.Get`, the fields `publiczip.Getter.Get`
reads: the requirement, the version being processed and the expected zip
filename. -/
structure GetOptions where
  PluginRequirement : Requirement
  version : String
  expectedZipFilename : String
deriving DecidableEq

/-- Request-building half of `publiczip.Getter.Get`
(src/packer/plugin-getter/public-zip/getter.go): `.ok url` is the URL the
method goes on to request over HTTP, `.error` is the early return of the
default switch case, taken before any request is built or performed. -/
def publicZipGet (opts : GetOptions) (what : String) : Except String String :=
  if what = "releases" then
    .ok ("https://api.github.com/repos/" ++
      opts.PluginRequirement.Identifier.RealRelativePath ++ "/git/matching-refs/tags")
  else if what = "sha256" then
    .ok ("https://github.com/" ++ opts.PluginRequirement.Identifier.RealRelativePath ++
      "/releases/download/" ++ opts.version ++ "/" ++
      opts.PluginRequirement.FilenamePrefix ++ opts.version ++ "_SHA256SUMS")
  else if what = "zip" then
    .ok ("https://" ++ opts.PluginRequirement.Identifier.Hostname ++ "/" ++
      opts.PluginRequirement.Identifier.RealRelativePath ++ "/releases/download/" ++
      opts.version ++ "/" ++ opts.expectedZipFilename)
  else .error ("\"" ++ what ++ "\" not implemented")

/-- Removal loop of `PluginsRemoveCommand.RunContext`
(src/packer/plugin-getter/public-zip/getter.go, second unit): for each
installation remove the binary — a failure there aborts with an error — then
remove the sidecar — a failure there is only reported and the loop continues —
and report the binary path; the result is the reported paths and the final
filesystem. -/
def pluginsRemove (fs : FS) : List Installation → Except String (List String × FS)
  | [] => .ok ([], fs)
  | i :: rest =>
    match fsLookup fs i.BinaryPath with
    | none => .error ("could not remove " ++ i.BinaryPath)
    | some _ =>
      match pluginsRemove
          (fsRemove (fsRemove fs i.BinaryPath) (i.BinaryPath ++ sidecarSuffix)) rest with
      | .error e => .error e
      | .ok (msgs, fs2) => .ok (i.BinaryPath :: msgs, fs2)

/-! Concrete data mirroring the repository's test scenarios
(`TestRequirement_InstallLatest` in `src/unnamed/part_000`). -/

/-- The `github.com/hashicorp/amazon` plugin identifier used throughout the
tests. -/
def amazonId : PluginIdentifier := ⟨"github.com", "hashicorp", "amazon"⟩

/-- Requirement with constraint `v1.2.3`. -/
def reqEq123 : Requirement := ⟨amazonId, [⟨.eq, ⟨1, 2, 3, ""⟩⟩]⟩

/-- Requirement with constraint `>= v1`. -/
def reqGe1 : Requirement := ⟨amazonId, [⟨.gte, ⟨1, 0, 0, ""⟩⟩]⟩

/-- Requirement with constraint `>= v2`. -/
def reqGe2 : Requirement := ⟨amazonId, [⟨.gte, ⟨2, 0, 0, ""⟩⟩]⟩

/-- Host speaks plugin API 6.1, targets darwin/amd64. -/
def binOpts61 : BinaryInstallationOptions := ⟨"6", "1", "darwin", "amd64", ""⟩

/-- Host speaks plugin API 5.0, targets darwin/amd64. -/
def binOpts50 : BinaryInstallationOptions := ⟨"5", "0", "darwin", "amd64", ""⟩

/-- Host speaks plugin API 5.1, targets darwin/amd64. -/
def binOpts51 : BinaryInstallationOptions := ⟨"5", "1", "darwin", "amd64", ""⟩

/-- Binary filename of amazon `v2.10.0` for API 6.0 on darwin/amd64. -/
def binName2100 : String := "packer-plugin-amazon_v2.10.0_x6.0_darwin_amd64"

/-- Raw bytes of the remote zip of `v2.10.0`. -/
def zipBytes2100 : String := "ZIPBYTES-2.10.0"

/-- Bytes of the binary inside the `v2.10.0` zip. -/
def binContent2100 : String := "v2.10.0_x6.0_darwin_amd64"

/-- Remote checksum entry of `v2.10.0`, its digest that of the zip bytes. -/
def entry2100 : ChecksumFileEntry :=
  { Filename := binName2100 ++ ".zip", Checksum := sha256Hex zipBytes2100 }

/-- The remote zip of `v2.10.0`. -/
def archive2100 : ZipArchive := ⟨zipBytes2100, [(binName2100, binContent2100)]⟩

/-- Getter of the one-missing-checksum-file scenario: releases `v2.10.0` and
`v2.10.1`, but only `v2.10.0` has a checksum manifest. -/
def getterC6 : GetterData :=
  ⟨[⟨"v2.10.0"⟩, ⟨"v2.10.1"⟩], [("2.10.0", [entry2100])],
   [("github.com/hashicorp/packer-plugin-amazon/" ++ binName2100 ++ ".zip", archive2100)]⟩

/-- Install options of the one-missing-checksum-file scenario. -/
def optsC6 : InstallOptions := ⟨getterC6, "testdata/plugins_2", false, binOpts61⟩

/-- On-disk path `v2.10.0` is installed to in the plugins_2 folder. -/
def pathC6 : String := "testdata/plugins_2/github.com/hashicorp/amazon/" ++ binName2100

/-- Filesystem after installing `v2.10.0` into an empty plugins_2 folder. -/
def fsC6' : FS :=
  [(pathC6 ++ sidecarSuffix, sha256Hex binContent2100 ++ "  " ++ binName2100 ++ "\n"),
   (pathC6, binContent2100)]

/-- Binary filename of amazon `v1.2.3` for API 5.0 on darwin/amd64. -/
def binName123 : String := "packer-plugin-amazon_v1.2.3_x5.0_darwin_amd64"

/-- On-disk path of the locally installed `v1.2.3`. -/
def path123 : String := "testdata/plugins/github.com/hashicorp/amazon/" ++ binName123

/-- Bytes of the locally installed `v1.2.3` binary. -/
def content123 : String := "amazon-1.2.3-binary"

/-- Filesystem of the already-installed scenarios: the `v1.2.3` binary and
its matching sidecar. -/
def fsC4 : FS :=
  [(path123, content123),
   (path123 ++ sidecarSuffix, sha256Hex content123 ++ "  " ++ binName123 ++ "\n")]

/-- Getter of the already-installed scenario: one release whose checksum
entry matches the locally installed binary; no zip is needed. -/
def getterC4 : GetterData :=
  ⟨[⟨"v1.2.3"⟩],
   [("1.2.3", [{ Filename := binName123 ++ ".zip", Checksum := sha256Hex content123 }])],
   []⟩

/-- Install options of the already-installed scenario. -/
def optsC4 : InstallOptions := ⟨getterC4, "testdata/plugins", false, binOpts50⟩

/-- On-disk path of the tampered local `v2.10.0` binary. -/
def pathC2 : String := "testdata/plugins_2/github.com/hashicorp/amazon/" ++ binName2100

/-- Filesystem of the wrong-local-checksum scenario: the local `v2.10.0`
binary is self-consistent with its sidecar but does not hash to the remote
entry's digest. -/
def fsC2 : FS :=
  [(pathC2, "tampered"),
   (pathC2 ++ sidecarSuffix, sha256Hex "tampered" ++ "  " ++ binName2100 ++ "\n")]

/-- Getter of the wrong-local-checksum scenario: the single release
`v2.10.0`. -/
def getterC2 : GetterData :=
  ⟨[⟨"v2.10.0"⟩], [("2.10.0", [entry2100])],
   [("github.com/hashicorp/packer-plugin-amazon/" ++ binName2100 ++ ".zip", archive2100)]⟩

/-- Install options of the wrong-local-checksum scenario. -/
def optsC2 : InstallOptions := ⟨getterC2, "testdata/plugins_2", false, binOpts61⟩

/-- The `v2.10.0` entry as it comes out of `init`. -/
def entry2100i : ChecksumFileEntry :=
  { Filename := binName2100 ++ ".zip", Checksum := sha256Hex zipBytes2100,
    binVersion := "v2.10.0", ext := "zip" }

/-- Remote checksum entry whose digest matches nothing. -/
def entryBad : ChecksumFileEntry :=
  { Filename := binName2100 ++ ".zip",
    Checksum := "133713371337133713371337c4a152edd277366a7f71ff3812583e4a35dd0d4a" }

/-- Getter of the wrong-zip-checksum scenario. -/
def getterC3 : GetterData :=
  ⟨[⟨"v2.10.0"⟩], [("2.10.0", [entryBad])],
   [("github.com/hashicorp/packer-plugin-amazon/" ++ binName2100 ++ ".zip", archive2100)]⟩

/-- Install options of the wrong-zip-checksum scenario. -/
def optsC3 : InstallOptions := ⟨getterC3, "testdata/plugins_2", false, binOpts61⟩

/-- The mismatching entry as it comes out of `init`. -/
def entryBadi : ChecksumFileEntry :=
  { Filename := binName2100 ++ ".zip",
    Checksum := "133713371337133713371337c4a152edd277366a7f71ff3812583e4a35dd0d4a",
    binVersion := "v2.10.0", ext := "zip" }

/-- The `v1.2.3` entry as it comes out of `init`. -/
def entry123i : ChecksumFileEntry :=
  { Filename := binName123 ++ ".zip", Checksum := sha256Hex content123,
    binVersion := "v1.2.3", ext := "zip" }

/-- Checksum entry of `TestChecksumFileEntry_init`. -/
def xenEntry : ChecksumFileEntry :=
  ⟨"packer-plugin-xenserver_v0.3.0_x5.0_darwin_amd64.zip", "0f59", "", ""⟩

/-- Requirement of `TestChecksumFileEntry_init`. -/
def xenReq : Requirement := ⟨⟨"github.com", "ddelnano", "xenserver"⟩, []⟩

/-! Helper lemmas. -/

theorem charsLt_irrefl : ∀ l : List Char, charsLt l l = false
  | [] => rfl
  | a :: as => by simp [charsLt, lt_irrefl, charsLt_irrefl as]

theorem semVerLt_irrefl (v : SemVer) : SemVer.lt v v = false := by
  by_cases hp : v.pre = "" <;> simp [SemVer.lt, hp, charsLt_irrefl]

theorem fsLookup_write_self (fs : FS) (p c : String) :
    fsLookup (fsWrite fs p c) p = some c := by
  simp [fsLookup, fsWrite, assocFind]

theorem fsLookup_write_ne (fs : FS) (p c q : String) (h : p ≠ q) :
    fsLookup (fsWrite fs p c) q = fsLookup fs q := by
  simp [fsLookup, fsWrite, assocFind, h]

theorem append_ne_self (s t : String) (h : t ≠ "") : s ++ t ≠ s := by
  intro he
  have hd : s.data ++ t.data = s.data := by rw [← String.data_append, he]
  have hlen := congrArg List.length hd
  rw [List.length_append] at hlen
  have hnil : t.data = [] := List.eq_nil_of_length_eq_zero (by omega)
  apply h
  apply String.ext
  rw [hnil]

theorem hexChar_not_ws : ∀ n : Nat, (hexChar n).isWhitespace = false := by
  intro n
  match n with
  | 0 | 1 | 2 | 3 | 4 | 5 | 6 | 7 | 8 | 9 | 10 | 11 | 12 | 13 | 14 => rfl
  | n + 15 => rfl

theorem sha256Hex_not_ws (s : String) :
    ∀ x ∈ (sha256Hex s).data, (!x.isWhitespace) = true := by
  intro x hx
  unfold sha256Hex at hx
  simp only [String.data] at hx
  simp only [List.mem_map] at hx
  obtain ⟨i, _, rfl⟩ := hx
  simp [hexChar_not_ws]

theorem takeWhile_append_all (p : Char → Bool) (a b : List Char)
    (h : ∀ x ∈ a, p x = true) :
    (a ++ b).takeWhile p = a ++ b.takeWhile p := by
  induction a with
  | nil => simp
  | cons x xs ih =>
    have hx : p x = true := h x (by simp)
    simp only [List.cons_append, List.takeWhile_cons, hx, if_true]
    rw [ih (fun y hy => h y (by simp [hy]))]

theorem firstToken_two_space (d rest : String)
    (h : ∀ x ∈ d.data, (!x.isWhitespace) = true) :
    firstToken (d ++ ("  " ++ rest)) = d := by
  unfold firstToken
  rw [String.data_append, String.data_append]
  rw [show "  ".data = [' ', ' '] from rfl]
  rw [show ([' ', ' '] ++ rest.data : List Char) = ' ' :: (' ' :: rest.data) from rfl]
  rw [takeWhile_append_all _ _ _ h]
  rw [show (' ' :: (' ' :: rest.data)).takeWhile (fun c => !c.isWhitespace) = [] from rfl]
  rw [List.append_nil]

theorem handleEntry_cases (req : Requirement) (opts : InstallOptions)
    (L : List Installation) (fs : FS) (vstr : String) (e : ChecksumFileEntry) :
    (handleEntry req opts L fs vstr e).2 = fs ∨
      ∃ inst, (handleEntry req opts L fs vstr e).1 = .ok (some inst) := by
  unfold handleEntry
  split
  · split
    · split
      · exact Or.inl rfl
      · exact Or.inl rfl
    · exact Or.inl rfl
  · split
    · exact Or.inl rfl
    · split
      · split
        · exact Or.inr ⟨_, rfl⟩
        · exact Or.inl rfl
      · exact Or.inl rfl

theorem installLoop_cases (req : Requirement) (opts : InstallOptions)
    (L : List Installation) :
    ∀ (vs : List (SemVer × String)) (fs : FS),
      (installLoop req opts L vs fs).2 = fs ∨
        ∃ inst, (installLoop req opts L vs fs).1 = .ok (some inst)
  | [], _ => Or.inl rfl
  | (v, vstr) :: rest, fs => by
    simp only [installLoop]
    split
    · exact installLoop_cases req opts L rest fs
    · exact handleEntry_cases req opts L fs vstr _

theorem installLatest_cases (req : Requirement) (opts : InstallOptions) (fs : FS) :
    (req.InstallLatest opts fs).2 = fs ∨
      ∃ inst, (req.InstallLatest opts fs).1 = .ok (some inst) := by
  unfold Requirement.InstallLatest
  split
  · exact Or.inl rfl
  · exact installLoop_cases req opts _ _ fs

theorem installLatest_error_fs (req : Requirement) (opts : InstallOptions) (fs : FS)
    (e : String) (h : (req.InstallLatest opts fs).1 = .error e) :
    (req.InstallLatest opts fs).2 = fs := by
  rcases installLatest_cases req opts fs with h2 | ⟨inst, h2⟩
  · exact h2
  · rw [h] at h2
    cases h2

theorem installLatest_none_fs (req : Requirement) (opts : InstallOptions) (fs fs' : FS)
    (h : req.InstallLatest opts fs = (.ok none, fs')) : fs' = fs := by
  rcases installLatest_cases req opts fs with h2 | ⟨inst, h2⟩
  · rw [h] at h2
    exact h2
  · rw [h] at h2
    simp at h2

theorem installLoop_ok_some (req : Requirement) (opts : InstallOptions)
    (L : List Installation) :
    ∀ (vs : List (SemVer × String)) (fs : FS) (inst : Installation) (fs' : FS),
      installLoop req opts L vs fs = (.ok (some inst), fs') →
      ∃ name content,
        inst.BinaryPath = pluginSubdir req opts.PluginDirectory ++ "/" ++ name ∧
        fsLookup fs' inst.BinaryPath = some content ∧
        fsLookup fs' (inst.BinaryPath ++ sidecarSuffix) =
          some (sha256Hex content ++ ("  " ++ (name ++ "\n")))
  | [], fs, inst, fs' => by
    intro h
    simp [installLoop] at h
  | (v, vstr) :: rest, fs, inst, fs' => by
    intro h
    simp only [installLoop] at h
    split at h
    · exact installLoop_ok_some req opts L rest fs inst fs' h
    · unfold handleEntry at h
      split at h
      · split at h
        · split at h
          · simp at h
          · simp at h
        · simp at h
      · split at h
        · simp at h
        · split at h
          · split at h
            · rw [Prod.mk.injEq] at h
              obtain ⟨h1, h2⟩ := h
              simp only [Except.ok.injEq, Option.some.injEq] at h1
              subst h1
              subst h2
              rename_i binContent hbin
              refine ⟨expectedBinName opts.BinOpts _, binContent, rfl, ?_, ?_⟩
              · rw [show (Installation.mk (expectedPath req opts _) vstr).BinaryPath
                    = expectedPath req opts _ from rfl]
                rw [fsLookup_write_ne _ _ _ _
                  (append_ne_self (expectedPath req opts _) sidecarSuffix (by decide))]
                exact fsLookup_write_self _ _ _
              · rw [show (Installation.mk (expectedPath req opts _) vstr).BinaryPath
                    = expectedPath req opts _ from rfl]
                exact fsLookup_write_self _ _ _
            · simp at h
          · simp at h

theorem fsRemove_lookup_self (fs : FS) (p : String) : fsLookup (fsRemove fs p) p = none := by
  induction fs with
  | nil => rfl
  | cons kv rest ih =>
    by_cases hk : kv.1 = p
    · simpa [fsRemove, fsLookup, List.filter_cons, hk] using ih
    · simpa [fsRemove, fsLookup, List.filter_cons, hk, assocFind] using ih

theorem fsRemove_preserves_none (fs : FS) (p q : String) (h : fsLookup fs q = none) :
    fsLookup (fsRemove fs p) q = none := by
  induction fs with
  | nil => rfl
  | cons kv rest ih =>
    have hk : ¬kv.1 = q := by
      intro he
      simp [fsLookup, assocFind, he] at h
    have hr : fsLookup rest q = none := by
      simpa [fsLookup, assocFind, hk] using h
    by_cases hp : kv.1 = p
    · simpa [fsRemove, fsLookup, List.filter_cons, hp] using ih hr
    · simpa [fsRemove, fsLookup, List.filter_cons, hp, assocFind, hk] using ih hr

theorem pluginsRemove_preserves_none :
    ∀ (installs : List Installation) (fs : FS) (msgs : List String) (fs' : FS) (q : String),
      pluginsRemove fs installs = .ok (msgs, fs') → fsLookup fs q = none →
      fsLookup fs' q = none
  | [], fs, msgs, fs', q => by
    intro h hq
    simp only [pluginsRemove, Except.ok.injEq, Prod.mk.injEq] at h
    rw [← h.2]
    exact hq
  | i :: rest, fs, msgs, fs', q => by
    intro h hq
    simp only [pluginsRemove] at h
    split at h
    · simp at h
    · split at h
      · simp at h
      · rename_i msgs2 fs2 heq2
        simp only [Except.ok.injEq, Prod.mk.injEq] at h
        rw [← h.2]
        exact pluginsRemove_preserves_none rest _ msgs2 fs2 q heq2
          (fsRemove_preserves_none _ _ _ (fsRemove_preserves_none _ _ _ hq))

theorem pluginsRemove_ok_spec :
    ∀ (installs : List Installation) (fs : FS) (msgs : List String) (fs' : FS),
      pluginsRemove fs installs = .ok (msgs, fs') →
      msgs = installs.map Installation.BinaryPath ∧
      ∀ i ∈ installs, fsLookup fs' i.BinaryPath = none ∧
        fsLookup fs' (i.BinaryPath ++ sidecarSuffix) = none
  | [], fs, msgs, fs' => by
    intro h
    simp only [pluginsRemove, Except.ok.injEq, Prod.mk.injEq] at h
    exact ⟨h.1.symm, by simp⟩
  | i :: rest, fs, msgs, fs' => by
    intro h
    simp only [pluginsRemove] at h
    split at h
    · simp at h
    · split at h
      · simp at h
      · rename_i msgs2 fs2 heq2
        simp only [Except.ok.injEq, Prod.mk.injEq] at h
        obtain ⟨hm, hf⟩ := h
        obtain ⟨ihm, ihp⟩ := pluginsRemove_ok_spec rest _ msgs2 fs2 heq2
        constructor
        · rw [← hm, ihm]
          simp
        · intro j hj
          rcases List.mem_cons.mp hj with hji | hjr
          · subst hji
            rw [← hf]
            constructor
            · exact pluginsRemove_preserves_none rest _ msgs2 fs2 _ heq2
                (fsRemove_preserves_none _ _ _ (fsRemove_lookup_self _ _))
            · exact pluginsRemove_preserves_none rest _ msgs2 fs2 _ heq2
                (fsRemove_lookup_self _ _)
          · rw [← hf]
            exact ihp j hjr

/-! Claim theorems. -/

/-- C1: every successful `InstallLatest` returning `Installation{p, v}` leaves
the binary `p` on disk under `<PluginDirectory>/<Hostname>/<Namespace>/<Type>/`,
the sibling file `p_SHA256SUM` on disk as well, and the hex digest of `p`'s
bytes equal to the first token of `p_SHA256SUM`. -/
theorem C1_install_writes_verified_binary (req : Requirement) (opts : InstallOptions)
    (fs : FS) (inst : Installation) (fs' : FS)
    (h : req.InstallLatest opts fs = (.ok (some inst), fs')) :
    ∃ name content side,
      inst.BinaryPath = pluginSubdir req opts.PluginDirectory ++ "/" ++ name ∧
      fsLookup fs' inst.BinaryPath = some content ∧
      fsLookup fs' (inst.BinaryPath ++ sidecarSuffix) = some side ∧
      firstToken side = sha256Hex content := by
  unfold Requirement.InstallLatest at h
  split at h
  · simp at h
  · obtain ⟨name, content, h1, h2, h3⟩ :=
      installLoop_ok_some req opts _ _ fs inst fs' h
    exact ⟨name, content, _, h1, h2, h3,
      firstToken_two_space (sha256Hex content) (name ++ "\n") (sha256Hex_not_ws content)⟩

/-- Witness for C1 at the upgrade scenario: installing `v2.10.0` into an
empty plugin folder. -/
theorem C1_witness :
    ∃ name content side,
      (Installation.mk pathC6 "v2.10.0").BinaryPath =
        pluginSubdir reqGe2 optsC6.PluginDirectory ++ "/" ++ name ∧
      fsLookup fsC6' (Installation.mk pathC6 "v2.10.0").BinaryPath = some content ∧
      fsLookup fsC6' ((Installation.mk pathC6 "v2.10.0").BinaryPath ++ sidecarSuffix) =
        some side ∧
      firstToken side = sha256Hex content :=
  C1_install_writes_verified_binary reqGe2 optsC6 [] ⟨pathC6, "v2.10.0"⟩ fsC6' (by decide)

/-- C2: when the locally installed binary for the selected version exists
under the expected filename but its computed digest does not match the
surviving remote checksum entry, `InstallLatest` fails fatally; and any error
outcome of `InstallLatest` leaves the filesystem unchanged, so nothing is
re-downloaded or installed. -/
theorem C2_wrong_local_checksum_fatal :
    (∀ (req : Requirement) (opts : InstallOptions) (fs : FS) (msg : String),
        (req.InstallLatest opts fs).1 = .error msg →
        (req.InstallLatest opts fs).2 = fs) ∧
    (∀ (req : Requirement) (opts : InstallOptions) (fs : FS) (L : List Installation)
        (v : SemVer) (vstr : String) (rest : List (SemVer × String))
        (e : ChecksumFileEntry) (es : List ChecksumFileEntry)
        (l : Installation) (content : String),
      req.ListInstallations opts.BinOpts opts.PluginDirectory fs = .ok L →
      selectVersions req opts.Getter = (v, vstr) :: rest →
      survivingEntries req opts.BinOpts opts.Getter v = e :: es →
      L.find? (fun i => decide (i.BinaryPath = expectedPath req opts e)) = some l →
      fsLookup fs l.BinaryPath = some content →
      sha256Hex content ≠ e.Checksum →
      req.InstallLatest opts fs =
        (.error ("ChecksumMismatch: installed binary " ++ l.BinaryPath ++
          " does not match the remote checksum"), fs)) := by
  constructor
  · exact installLatest_error_fs
  · intro req opts fs L v vstr rest e es l content h1 h2 h3 h4 h5 h6
    simp only [Requirement.InstallLatest, h1, h2, installLoop, h3, handleEntry, h4, h5,
      if_neg h6]

/-- Witness for C2 at the wrong-local-checksum scenario. -/
theorem C2_witness :
    reqGe1.InstallLatest optsC2 fsC2 =
      (.error ("ChecksumMismatch: installed binary " ++ pathC2 ++
        " does not match the remote checksum"), fsC2) :=
  C2_wrong_local_checksum_fatal.2 reqGe1 optsC2 fsC2 [⟨pathC2, "v2.10.0"⟩]
    ⟨2, 10, 0, ""⟩ "v2.10.0" [] entry2100i [] ⟨pathC2, "v2.10.0"⟩ "tampered"
    (by decide) (by decide) (by decide) (by decide) (by decide) (by decide)

/-- C3: when the fetched zip archive's bytes hash to a digest different from
the surviving manifest entry's checksum, `InstallLatest` fails fatally and —
since every error outcome leaves the filesystem unchanged — no binary file is
written to disk. -/
theorem C3_wrong_zip_checksum_fatal :
    (∀ (req : Requirement) (opts : InstallOptions) (fs : FS) (msg : String),
        (req.InstallLatest opts fs).1 = .error msg →
        (req.InstallLatest opts fs).2 = fs) ∧
    (∀ (req : Requirement) (opts : InstallOptions) (fs : FS) (L : List Installation)
        (v : SemVer) (vstr : String) (rest : List (SemVer × String))
        (e : ChecksumFileEntry) (es : List ChecksumFileEntry) (archive : ZipArchive),
      req.ListInstallations opts.BinOpts opts.PluginDirectory fs = .ok L →
      selectVersions req opts.Getter = (v, vstr) :: rest →
      survivingEntries req opts.BinOpts opts.Getter v = e :: es →
      L.find? (fun i => decide (i.BinaryPath = expectedPath req opts e)) = none →
      assocFind opts.Getter.Zips (zipKey req e) = some archive →
      sha256Hex archive.bytes ≠ e.Checksum →
      req.InstallLatest opts fs =
        (.error ("ChecksumMismatch: archive " ++ e.Filename ++
          " does not match its checksum"), fs)) := by
  constructor
  · exact installLatest_error_fs
  · intro req opts fs L v vstr rest e es archive h1 h2 h3 h4 h5 h6
    simp only [Requirement.InstallLatest, h1, h2, installLoop, h3, handleEntry, h4, h5,
      if_neg h6]

/-- Witness for C3 at the wrong-zip-checksum scenario. -/
theorem C3_witness :
    reqGe2.InstallLatest optsC3 [] =
      (.error ("ChecksumMismatch: archive " ++ entryBadi.Filename ++
        " does not match its checksum"), []) :=
  C3_wrong_zip_checksum_fatal.2 reqGe2 optsC3 [] [] ⟨2, 10, 0, ""⟩ "v2.10.0" []
    entryBadi [] archive2100
    (by decide) (by decide) (by decide) (by decide) (by decide) (by decide)

/-- C4: when the locally installed binary for the selected version exists
under the expected filename and its digest matches the surviving entry,
`InstallLatest` returns `none` with no error and the returned filesystem is
exactly the input one; and every `.ok none` outcome leaves the filesystem
unchanged. -/
theorem C4_already_installed_noop :
    (∀ (req : Requirement) (opts : InstallOptions) (fs fs' : FS),
        req.InstallLatest opts fs = (.ok none, fs') → fs' = fs) ∧
    (∀ (req : Requirement) (opts : InstallOptions) (fs : FS) (L : List Installation)
        (v : SemVer) (vstr : String) (rest : List (SemVer × String))
        (e : ChecksumFileEntry) (es : List ChecksumFileEntry)
        (l : Installation) (content : String),
      req.ListInstallations opts.BinOpts opts.PluginDirectory fs = .ok L →
      selectVersions req opts.Getter = (v, vstr) :: rest →
      survivingEntries req opts.BinOpts opts.Getter v = e :: es →
      L.find? (fun i => decide (i.BinaryPath = expectedPath req opts e)) = some l →
      fsLookup fs l.BinaryPath = some content →
      sha256Hex content = e.Checksum →
      req.InstallLatest opts fs = (.ok none, fs)) := by
  constructor
  · exact installLatest_none_fs
  · intro req opts fs L v vstr rest e es l content h1 h2 h3 h4 h5 h6
    simp only [Requirement.InstallLatest, h1, h2, installLoop, h3, handleEntry, h4, h5,
      if_pos h6]

/-- Witness for C4 at the already-installed scenario. -/
theorem C4_witness :
    reqEq123.InstallLatest optsC4 fsC4 = (.ok none, fsC4) :=
  C4_already_installed_noop.2 reqEq123 optsC4 fsC4 [⟨path123, "v1.2.3"⟩]
    ⟨1, 2, 3, ""⟩ "v1.2.3" [] entry123i [] ⟨path123, "v1.2.3"⟩ content123
    (by decide) (by decide) (by decide) (by decide) (by decide) (by decide)

/-- C5: whenever all four API components parse as integers, the API filter
accepts exactly when the candidate's major equals the host's major and the
candidate's minor is at most the host's minor; concretely, a lower minor with
equal major is accepted, a differing major is rejected, and an entry of a
newer version with a differing major is rejected. -/
theorem C5_api_filter_characterization :
    (∀ (opts : BinaryInstallationOptions) (maS miS : String) (ma mi oma omi : Nat),
        strToNat? maS = some ma → strToNat? miS = some mi →
        strToNat? opts.APIVersionMajor = some oma →
        strToNat? opts.APIVersionMinor = some omi →
        (apiCompatible opts maS miS = true ↔ (ma = oma ∧ mi ≤ omi))) ∧
    apiCompatible binOpts51 "5" "0" = true ∧
    apiCompatible binOpts50 "6" "0" = false ∧
    entryMatches reqGe1 binOpts50
      ⟨"packer-plugin-amazon_v2.0.0_x6.0_darwin_amd64.zip", "cafe", "", ""⟩ = false := by
  refine ⟨?_, by decide, by decide, by decide⟩
  intro opts maS miS ma mi oma omi h1 h2 h3 h4
  unfold apiCompatible
  rw [h1, h2, h3, h4]
  simp only [Bool.not_eq_eq_eq_not, Bool.not_true, Bool.or_eq_false_iff,
    decide_eq_false_iff_not, Bool.and_eq_false_iff, not_not]
  constructor
  · intro hc
    rcases hc with ⟨hma, hmi⟩
    rcases hmi with hma2 | hlt
    · exact absurd hma hma2.elim
    · exact ⟨hma, by omega⟩
  · intro hc
    exact ⟨hc.1, Or.inr (by omega)⟩

/-- Witness for C5: the API-5.1 host accepts an API-5.0 candidate. -/
theorem C5_witness :
    apiCompatible binOpts51 "5" "0" = true ↔ (5 = 5 ∧ 0 ≤ 1) :=
  C5_api_filter_characterization.1 binOpts51 "5" "0" 5 0 5 1
    (by decide) (by decide) (by decide) (by decide)

/-- C6: a candidate version with no surviving checksum entry (missing
manifest included) is silently skipped and the loop continues with the next
version; concretely, with releases `v2.10.0` and `v2.10.1` but a manifest
only for `v2.10.0`, `InstallLatest` installs `v2.10.0`. -/
theorem C6_missing_manifest_skipped :
    (∀ (req : Requirement) (opts : InstallOptions) (L : List Installation)
        (v : SemVer) (vstr : String) (rest : List (SemVer × String)) (fs : FS),
      survivingEntries req opts.BinOpts opts.Getter v = [] →
      installLoop req opts L ((v, vstr) :: rest) fs = installLoop req opts L rest fs) ∧
    reqGe2.InstallLatest optsC6 [] = (.ok (some ⟨pathC6, "v2.10.0"⟩), fsC6') := by
  constructor
  · intro req opts L v vstr rest fs h
    simp only [installLoop, h]
  · decide

/-- Witness for C6: `v2.10.1` has no surviving entry, so the loop on
`[v2.10.1, v2.10.0]` equals the loop on `[v2.10.0]`. -/
theorem C6_witness :
    installLoop reqGe2 optsC6 []
        [(⟨2, 10, 1, ""⟩, "v2.10.1"), (⟨2, 10, 0, ""⟩, "v2.10.0")] [] =
      installLoop reqGe2 optsC6 [] [(⟨2, 10, 0, ""⟩, "v2.10.0")] [] :=
  C6_missing_manifest_skipped.1 reqGe2 optsC6 [] ⟨2, 10, 1, ""⟩ "v2.10.1"
    [(⟨2, 10, 0, ""⟩, "v2.10.0")] [] (by decide)

/-- C7: `InstallList.Less` is semver precedence: on equal parsed versions it
is false in both directions, and on the boundary cases `v1.2.2-dev < v1.2.2`,
`v1.2.1 < v1.2.2-dev` hold while `v1.2.3 < v1.2.2-dev` and
`v1.2.2 < v1.2.2-dev` do not. -/
theorem C7_install_list_less_semver :
    (∀ i j : Installation, SemVer.parse i.Version = SemVer.parse j.Version →
        InstallList.Less [i, j] 0 1 = false ∧ InstallList.Less [i, j] 1 0 = false) ∧
    InstallList.Less [⟨"a", "v1.2.2-dev"⟩, ⟨"b", "v1.2.2"⟩] 0 1 = true ∧
    InstallList.Less [⟨"a", "v1.2.1"⟩, ⟨"b", "v1.2.2-dev"⟩] 0 1 = true ∧
    InstallList.Less [⟨"a", "v1.2.3"⟩, ⟨"b", "v1.2.2-dev"⟩] 0 1 = false ∧
    InstallList.Less [⟨"a", "v1.2.2"⟩, ⟨"b", "v1.2.2-dev"⟩] 0 1 = false := by
  refine ⟨?_, by decide, by decide, by decide, by decide⟩
  intro i j h
  unfold InstallList.Less
  simp only [List.get?]
  rw [h]
  cases hp : SemVer.parse j.Version
  · simp
  · simp [semVerLt_irrefl]

/-- Witness for C7: two installations of the same version are not `Less` in
either direction. -/
theorem C7_witness :
    InstallList.Less [⟨"a", "v1.2.1"⟩, ⟨"b", "v1.2.1"⟩] 0 1 = false ∧
    InstallList.Less [⟨"a", "v1.2.1"⟩, ⟨"b", "v1.2.1"⟩] 1 0 = false :=
  C7_install_list_less_semver.1 ⟨"a", "v1.2.1"⟩ ⟨"b", "v1.2.1"⟩ rfl

/-- C8: `init` succeeds on every filename that begins with the requirement's
prefix and has at least four underscore-separated fields after it, setting
`binVersion` to the first such field; it fails when the prefix does not match
or an underscore separator is missing. -/
theorem C8_init_characterization :
    (∀ (req : Requirement) (e : ChecksumFileEntry) (v p2 p3 p4 : List Char)
        (tl : List (List Char)) (rest : List Char),
      dropPrefixChars req.FilenamePrefix.data e.Filename.data = some rest →
      splitOnChar '_' rest = v :: p2 :: p3 :: p4 :: tl →
      e.init req =
        .ok { e with binVersion := String.mk v,
                     ext := String.mk (splitExt e.Filename.data).2 }) ∧
    (∀ (req : Requirement) (e : ChecksumFileEntry),
      dropPrefixChars req.FilenamePrefix.data e.Filename.data = none →
      e.init req = .error ("wrong prefix for " ++ e.Filename)) ∧
    (∀ (req : Requirement) (e : ChecksumFileEntry) (rest : List Char),
      dropPrefixChars req.FilenamePrefix.data e.Filename.data = some rest →
      (splitOnChar '_' rest).length < 4 →
      e.init req = .error ("malformed filename " ++ e.Filename)) := by
  refine ⟨?_, ?_, ?_⟩
  · intro req e v p2 p3 p4 tl rest h1 h2
    simp only [ChecksumFileEntry.init, h1, h2]
  · intro req e h
    simp only [ChecksumFileEntry.init, h]
  · intro req e rest h1 h2
    simp only [ChecksumFileEntry.init, h1]
    rcases hs : splitOnChar '_' rest with _ | ⟨a, _ | ⟨b, _ | ⟨c, _ | ⟨d, t⟩⟩⟩⟩
    · rfl
    · rfl
    · rfl
    · rfl
    · rw [hs] at h2
      simp only [List.length_cons] at h2
      omega

/-- Witness for C8 at the xenserver entry of `TestChecksumFileEntry_init`:
`binVersion` comes out as `v0.3.0`. -/
theorem C8_witness :
    xenEntry.init xenReq =
      .ok { xenEntry with binVersion := String.mk "v0.3.0".data,
                          ext := String.mk (splitExt xenEntry.Filename.data).2 } :=
  C8_init_characterization.1 xenReq xenEntry "v0.3.0".data "x5.0".data "darwin".data
    "amd64.zip".data [] "v0.3.0_x5.0_darwin_amd64.zip".data (by decide) (by decide)

/-- C9: a successful removal run reports exactly the binary paths of the
enumerated installations and removes each binary and its sidecar; a missing
binary aborts the run with an error, while a missing sidecar is soft — the
run still succeeds and still reports the removed binary path. -/
theorem C9_remove_contract :
    (∀ (fs : FS) (installs : List Installation) (msgs : List String) (fs' : FS),
        pluginsRemove fs installs = .ok (msgs, fs') →
        msgs = installs.map Installation.BinaryPath ∧
        ∀ i ∈ installs, fsLookup fs' i.BinaryPath = none ∧
          fsLookup fs' (i.BinaryPath ++ sidecarSuffix) = none) ∧
    (∀ (fs : FS) (i : Installation) (rest : List Installation),
        fsLookup fs i.BinaryPath = none →
        pluginsRemove fs (i :: rest) = .error ("could not remove " ++ i.BinaryPath)) ∧
    (∀ (fs : FS) (i : Installation) (c : String),
        fsLookup fs i.BinaryPath = some c →
        fsLookup fs (i.BinaryPath ++ sidecarSuffix) = none →
        pluginsRemove fs [i] =
          .ok ([i.BinaryPath],
            fsRemove (fsRemove fs i.BinaryPath) (i.BinaryPath ++ sidecarSuffix))) := by
  refine ⟨fun fs installs msgs fs' h => pluginsRemove_ok_spec installs fs msgs fs' h, ?_, ?_⟩
  · intro fs i rest h
    simp only [pluginsRemove, h]
  · intro fs i c h1 h2
    simp only [pluginsRemove, h1]

/-- Witness for C9: removing the installed `v1.2.3` whose sidecar is missing
still succeeds and reports the binary path. -/
theorem C9_witness :
    pluginsRemove [(path123, content123)] [⟨path123, "v1.2.3"⟩] =
      .ok ([path123],
        fsRemove (fsRemove [(path123, content123)] path123) (path123 ++ sidecarSuffix)) :=
  C9_remove_contract.2.2 [(path123, content123)] ⟨path123, "v1.2.3"⟩ content123
    (by decide) (by decide)

/-- C10: for every `what` other than `releases`, `sha256` and `zip`, the
public-zip getter returns an error before building or performing any HTTP
request. -/
theorem C10_unknown_resource_rejected (opts : GetOptions) (what : String)
    (h1 : what ≠ "releases") (h2 : what ≠ "sha256") (h3 : what ≠ "zip") :
    publicZipGet opts what = .error ("\"" ++ what ++ "\" not implemented") := by
  unfold publicZipGet
  rw [if_neg h1, if_neg h2, if_neg h3]

/-- Witness for C10 at `what = "meta"`. -/
theorem C10_witness :
    publicZipGet ⟨reqGe1, "v0.2.11", "packer-plugin-amazon_v0.2.11_x5.0_darwin_amd64.zip"⟩
        "meta" = .error ("\"meta\" not implemented") :=
  C10_unknown_resource_rejected ⟨reqGe1, "v0.2.11",
    "packer-plugin-amazon_v0.2.11_x5.0_darwin_amd64.zip"⟩ "meta"
    (by decide) (by decide) (by decide)

end Packer
